import Mathlib

/-!
Verification development for the Ficlat backend (authentication/session
subsystem and wallet ledger).

The JavaScript auth service and model layers (`authService`/`authModel`) are
embedded as pure Lean functions in explicit state-passing style: every
operation takes a `Store` and returns its result together with the store it
leaves behind.  Database reads (`SELECT ... rows[0]`) become `List.find?` in
insertion order, `INSERT` appends, `DELETE` filters.  Times are `Nat`
(milliseconds since epoch) passed explicitly wherever the source uses
`Date.now()` / `NOW()`.  Thrown JavaScript errors become `Except.error`
carrying a `JsError` record (error class name, message, optional `status`
field), matching the `Error` objects the source constructs.

External libraries are modelled at their observable boundary:
`crypto.createHash('sha256')` is a full executable SHA-256 over the UTF-8
bytes of the input; `bcryptjs` and `jsonwebtoken` are deterministic stand-ins
(only the boolean outcome of `bcrypt.compare` and the functional dependence of
the JWT on `{id, role}` matter to any property proved here).
-/

/-! ## SHA-256 (model of Node `crypto.createHash('sha256').update(s).digest('hex')`) -/

/-- Truncation to a 32-bit word. -/
def w32 (x : Nat) : Nat := x % 4294967296

/-- Right rotation of a 32-bit word by `n` bits. -/
def rotr32 (n x : Nat) : Nat := w32 ((x >>> n) ||| (x <<< (32 - n)))

/-- SHA-256 message-schedule function sigma0. -/
def smallSigma0 (x : Nat) : Nat := (rotr32 7 x) ^^^ (rotr32 18 x) ^^^ (x >>> 3)

/-- SHA-256 message-schedule function sigma1. -/
def smallSigma1 (x : Nat) : Nat := (rotr32 17 x) ^^^ (rotr32 19 x) ^^^ (x >>> 10)

/-- SHA-256 compression function Sigma0. -/
def bigSigma0 (x : Nat) : Nat := (rotr32 2 x) ^^^ (rotr32 13 x) ^^^ (rotr32 22 x)

/-- SHA-256 compression function Sigma1. -/
def bigSigma1 (x : Nat) : Nat := (rotr32 6 x) ^^^ (rotr32 11 x) ^^^ (rotr32 25 x)

/-- SHA-256 choice function: `(x AND y) XOR (NOT x AND z)` on 32-bit words. -/
def shaCh (x y z : Nat) : Nat := (x &&& y) ^^^ ((x ^^^ 4294967295) &&& z)

/-- SHA-256 majority function. -/
def shaMaj (x y z : Nat) : Nat := (x &&& y) ^^^ (x &&& z) ^^^ (y &&& z)

/-- SHA-256 round constants. -/
def shaK : List Nat :=
  [1116352408, 1899447441, 3049323471, 3921009573, 961987163, 1508970993, 2453635748, 2870763221,
   3624381080, 310598401, 607225278, 1426881987, 1925078388, 2162078206, 2614888103, 3248222580,
   3835390401, 4022224774, 264347078, 604807628, 770255983, 1249150122, 1555081692, 1996064986,
   2554220882, 2821834349, 2952996808, 3210313671, 3336571891, 3584528711, 113926993, 338241895,
   666307205, 773529912, 1294757372, 1396182291, 1695183700, 1986661051, 2177026350, 2456956037,
   2730485921, 2820302411, 3259730800, 3345764771, 3516065817, 3600352804, 4094571909, 275423344,
   430227734, 506948616, 659060556, 883997877, 958139571, 1322822218, 1537002063, 1747873779,
   1955562222, 2024104815, 2227730452, 2361852424, 2428436474, 2756734187, 3204031479, 3329325298]

/-- SHA-256 initial hash state. -/
def shaH0 : List Nat :=
  [1779033703, 3144134277, 1013904242, 2773480762, 1359893119, 2600822924, 528734635, 1541459225]

/-- Extend a 16-word block to the 64-word message schedule, one word per step. -/
def extendW (ws : List Nat) : Nat → List Nat
  | 0 => ws
  | n + 1 =>
    let i := ws.length
    extendW (ws ++ [w32 (smallSigma1 (ws.getD (i - 2) 0) + ws.getD (i - 7) 0 +
      smallSigma0 (ws.getD (i - 15) 0) + ws.getD (i - 16) 0)]) n

/-- One SHA-256 compression round on the 8-word working state. -/
def compressRound (st : List Nat) (kw : Nat) : List Nat :=
  match st with
  | [a, b, c, d, e, f, g, h] =>
    let t1 := w32 (h + bigSigma1 e + shaCh e f g + kw)
    let t2 := w32 (bigSigma0 a + shaMaj a b c)
    [w32 (t1 + t2), a, b, c, w32 (d + t1), e, f, g]
  | other => other

/-- Process one 512-bit block into the running hash state. -/
def processBlock (hs : List Nat) (block : List Nat) : List Nat :=
  let ws := extendW block 48
  let kws := List.zipWith (fun k w => w32 (k + w)) shaK ws
  let st := kws.foldl compressRound hs
  List.zipWith (fun h v => w32 (h + v)) hs st

/-- UTF-8 encoding of a Unicode code point as a byte list. -/
def utf8EncodeChar (c : Nat) : List Nat :=
  if c < 0x80 then [c]
  else if c < 0x800 then [0xC0 ||| (c >>> 6), 0x80 ||| (c &&& 0x3F)]
  else if c < 0x10000 then
    [0xE0 ||| (c >>> 12), 0x80 ||| ((c >>> 6) &&& 0x3F), 0x80 ||| (c &&& 0x3F)]
  else
    [0xF0 ||| (c >>> 18), 0x80 ||| ((c >>> 12) &&& 0x3F), 0x80 ||| ((c >>> 6) &&& 0x3F),
     0x80 ||| (c &&& 0x3F)]

/-- UTF-8 bytes of a string. -/
def strBytes (s : String) : List Nat :=
  (s.data.map (fun c => utf8EncodeChar c.toNat)).flatten

/-- SHA-256 padding: append 0x80, zero bytes, and the 64-bit big-endian bit length. -/
def padMessage (msg : List Nat) : List Nat :=
  let L := msg.length
  let zeros := (120 - ((L + 1) % 64)) % 64
  let lenBytes := [56, 48, 40, 32, 24, 16, 8, 0].map (fun sh => ((8 * L) >>> sh) % 256)
  msg ++ [0x80] ++ List.replicate zeros 0 ++ lenBytes

/-- Group bytes into big-endian 32-bit words. -/
def bytesToWords : List Nat → List Nat
  | b0 :: b1 :: b2 :: b3 :: rest => (((b0 * 256 + b1) * 256 + b2) * 256 + b3) :: bytesToWords rest
  | _ => []

/-- Split a byte list into 64-byte blocks. -/
def chunksAux : Nat → List Nat → List (List Nat)
  | 0, _ => []
  | _, [] => []
  | fuel + 1, l => l.take 64 :: chunksAux fuel (l.drop 64)

def chunks64 (l : List Nat) : List (List Nat) := chunksAux l.length l

/-- Lower-case hexadecimal digit for a value below 16. -/
def hexChar (n : Nat) : Char :=
  if n < 10 then Char.ofNat (48 + n) else Char.ofNat (87 + n)

/-- Eight hex characters of a 32-bit word, most significant nibble first. -/
def wordHexChars (w : Nat) : List Char :=
  [28, 24, 20, 16, 12, 8, 4, 0].map (fun sh => hexChar ((w >>> sh) % 16))

/-- SHA-256 hex digest of a string, as produced by
`crypto.createHash('sha256').update(s).digest('hex')` in `authModel.js`. -/
def sha256Hex (s : String) : String :=
  let blocks := (chunks64 (padMessage (strBytes s))).map bytesToWords
  let hs := blocks.foldl processBlock shaH0
  String.mk ((hs.map wordHexChars).flatten)

/-! ## External-library stand-ins (bcryptjs, jsonwebtoken, uuid) -/

/-- Deterministic stand-in for `bcrypt.hash(password, cost)`.  The real library
salts its output; no claim settled here depends on the internal format, only on
which `(password, storedHash)` pairs `bcrypt.compare` accepts. -/
def bcryptHash (password : String) (cost : Nat) : String :=
  "bcrypt$" ++ toString cost ++ "$" ++ password

/-- Stand-in for `bcrypt.compare(password, storedHash)`: accepts exactly the
hashes this model produces for the password. -/
def bcryptCompare (password storedHash : String) : Bool :=
  storedHash == bcryptHash password 10

/-- Model of `generateAccessToken` in the auth service: `jwt.sign({id, role},
secret, expiresIn 1h)`.  The signature and embedded timestamps are abstracted;
what the claims use is that the token is derived from the user record. -/
def generateAccessToken (u_id : Nat) (u_role : String) : String :=
  "jwt." ++ toString u_id ++ "." ++ u_role ++ ".1h"

/-! ## Data model (tables `users`, `user_sessions` of `schema.sql`) -/

/-- Row of the `users` table (columns used by the auth subsystem; timestamp
columns are omitted as no operation reads them). -/
structure User where
  id : Nat
  email : String
  password_hash : String
  role : String
  status : String
deriving Repr, DecidableEq

/-- Row of the `user_sessions` table. -/
structure Session where
  id : Nat
  user_id : Nat
  refresh_token_hash : String
  ip_address : Option String
  user_agent : Option String
  expires_at : Nat
deriving Repr, DecidableEq

/-- The relational store seen by the auth subsystem: the `users` and
`user_sessions` tables in insertion order, plus the next serial ids. -/
structure Store where
  users : List User
  sessions : List Session
  nextUserId : Nat
  nextSessionId : Nat
deriving Repr, DecidableEq

/-- Storage-layer failure surfaced by PostgreSQL (e.g. violation of the
`UNIQUE` constraint on `users.email` declared in `schema.sql`). -/
inductive DbError where
  | uniqueViolation (constraintName : String)
deriving Repr, DecidableEq

/-- A thrown JavaScript `Error`: constructor name, message, and the optional
`status` property the service sometimes attaches. -/
structure JsError where
  name : String
  message : String
  status : Option Nat
deriving Repr, DecidableEq

/-- Error thrown by `login` on both the unknown-email and the wrong-password
branch (`new Error('Invalid email or password')`). -/
def invalidCredentialsError : JsError := ⟨"Error", "Invalid email or password", none⟩

/-- Error thrown by `register` when the email is taken (status 400 attached). -/
def emailExistsError : JsError := ⟨"Error", "Email already exists", some 400⟩

/-- The `ReferenceError` raised when `login` evaluates `req.ip`: `req` is not
bound anywhere in the service module. -/
def reqNotDefinedError : JsError := ⟨"ReferenceError", "req is not defined", none⟩

/-- Error thrown by the refresh-token service when no session is found. -/
def invalidRefreshTokenError : JsError := ⟨"Error", "Invalid refresh token", none⟩

/-- Error thrown by `logout` when no refresh token is supplied. -/
def refreshTokenRequiredError : JsError :=
  ⟨"Error", "Refresh token is required for logout", none⟩

/-- The `TypeError` raised if the refresh service reads `.id` of an absent user. -/
def undefinedUserError : JsError :=
  ⟨"TypeError", "Cannot read properties of undefined (reading id)", none⟩

/-! ## Model layer (`authModel.js`) -/

/-- Embeds `findUserByEmail`: `SELECT * FROM users WHERE email = $1`, first row. -/
def findUserByEmail (σ : Store) (email : String) : Option User :=
  σ.users.find? (fun u => u.email == email)

/-- Embeds `findUserById`: `SELECT * FROM users WHERE id = $1`, first row. -/
def findUserById (σ : Store) (id : Nat) : Option User :=
  σ.users.find? (fun u => u.id == id)

/-- Embeds `createUser`: an `INSERT` into `users` with status
`'pending_verification'`.  The `UNIQUE` constraint on `users.email` declared in
`schema.sql` makes the insert fail with a unique violation when the email is
already present; the application code itself performs no check here. -/
def createUser (σ : Store) (email passwordHash role : String) :
    Except DbError User × Store :=
  if σ.users.any (fun u => u.email == email) then
    (Except.error (DbError.uniqueViolation "users_email_key"), σ)
  else
    let u : User := ⟨σ.nextUserId, email, passwordHash, role, "pending_verification"⟩
    (Except.ok u, { σ with users := σ.users ++ [u], nextUserId := σ.nextUserId + 1 })

/-- Milliseconds in the 7-day session lifetime (`7 * 24 * 60 * 60 * 1000`). -/
def sessionLifetimeMs : Nat := 7 * 24 * 60 * 60 * 1000

/-- Embeds `createSession`: hashes the raw token with SHA-256, computes
`expiresAt = Date.now() + 7 days`, inserts the row, returns the new id. -/
def createSession (σ : Store) (now : Nat) (userId : Nat) (refreshToken : String)
    (ip userAgent : Option String) : Nat × Store :=
  let refreshTokenHash := sha256Hex refreshToken
  let expiresAt := now + sessionLifetimeMs
  let s : Session := ⟨σ.nextSessionId, userId, refreshTokenHash, ip, userAgent, expiresAt⟩
  (σ.nextSessionId, { σ with sessions := σ.sessions ++ [s], nextSessionId := σ.nextSessionId + 1 })

/-- Embeds `findSession`: hashes the input and returns the first row with
`refresh_token_hash = $1 AND expires_at > NOW()`. -/
def findSession (σ : Store) (now : Nat) (refreshToken : String) : Option Session :=
  let refreshTokenHash := sha256Hex refreshToken
  σ.sessions.find? (fun s => s.refresh_token_hash == refreshTokenHash && decide (now < s.expires_at))

/-- Embeds `deleteSession`: `DELETE FROM user_sessions WHERE user_id = $1 AND
refresh_token_hash = $2`; deletes every matching row, reports nothing. -/
def deleteSession (σ : Store) (userId : Nat) (refreshToken : String) : Store :=
  let refreshTokenHash := sha256Hex refreshToken
  let keep := fun (s : Session) => !(s.user_id == userId && s.refresh_token_hash == refreshTokenHash)
  { σ with sessions := σ.sessions.filter keep }

/-! ## Service layer (the unnamed auth service module) -/

/-- Translation of a propagated PostgreSQL error into the JS error object the
service would re-throw unchanged. -/
def dbErrorToJs : DbError → JsError
  | DbError.uniqueViolation c =>
    ⟨"error", "duplicate key value violates unique constraint " ++ c, none⟩

/-- Embeds `register`: pre-insert lookup by email, throw `Email already exists`
with status 400 on a hit, otherwise bcrypt-hash the password and insert. -/
def register (σ : Store) (email password role : String) : Except JsError User × Store :=
  match findUserByEmail σ email with
  | some _ => (Except.error emailExistsError, σ)
  | none =>
    let hashedPassword := bcryptHash password 10
    match createUser σ email hashedPassword role with
    | (Except.ok u, σ₂) => (Except.ok u, σ₂)
    | (Except.error e, σ₂) => (Except.error (dbErrorToJs e), σ₂)

/-- Successful login result `{ user, accessToken, refreshToken }`. -/
structure LoginResult where
  user : User
  accessToken : String
  refreshToken : String
deriving Repr, DecidableEq

/-- Embeds `login`.  Unknown email and failed `bcrypt.compare` both throw
`new Error('Invalid email or password')`.  On matching credentials the code
evaluates `req.ip` as an argument to `createSession`, but `req` is not bound in
the module, so a `ReferenceError` is raised before `createSession` runs. -/
def login (σ : Store) (email password : String) : Except JsError LoginResult × Store :=
  match findUserByEmail σ email with
  | none => (Except.error invalidCredentialsError, σ)
  | some user =>
    if bcryptCompare password user.password_hash then
      (Except.error reqNotDefinedError, σ)
    else
      (Except.error invalidCredentialsError, σ)

/-- Embeds `logout`: a missing or empty (falsy) token throws, otherwise the
matching sessions are deleted. -/
def logout (σ : Store) (userId : Nat) (refreshToken : Option String) :
    Except JsError Unit × Store :=
  match refreshToken with
  | none => (Except.error refreshTokenRequiredError, σ)
  | some t =>
    if t == "" then (Except.error refreshTokenRequiredError, σ)
    else (Except.ok (), deleteSession σ userId t)

/-- Successful refresh result `{ accessToken }`. -/
structure RefreshResult where
  accessToken : String
deriving Repr, DecidableEq

/-- Embeds the `refreshToken` service: look the session up by token hash
(unexpired rows only), throw `Invalid refresh token` when absent, otherwise
re-derive the access token from the session user.  The operation performs no
insert, update or delete, so the store passes through untouched. -/
def refreshTokenService (σ : Store) (now : Nat) (rawToken : String) :
    Except JsError RefreshResult × Store :=
  match findSession σ now rawToken with
  | none => (Except.error invalidRefreshTokenError, σ)
  | some s =>
    match findUserById σ s.user_id with
    | none => (Except.error undefinedUserError, σ)
    | some u => (Except.ok ⟨generateAccessToken u.id u.role⟩, σ)

/-! ## Wallet ledger (spec-modelled) -/

/-- Row of the `transactions` table of `schema.sql` (columns relevant to the
ledger invariant).  Amounts are fixed-point `DECIMAL(19, 4)` values modelled as
integers counting units of 10^-4. -/
structure LedgerTransaction where
  wallet_id : Nat
  referral_request_id : Option Nat
  amount : Int
  type : String
  status : String
deriving Repr, DecidableEq

/-- Row of the `wallets` table of `schema.sql` (owner and currency columns do
not participate in the balance invariant and are omitted). -/
structure Wallet where
  id : Nat
  balance : Int
deriving Repr, DecidableEq

/-- The financial tables: `wallets` plus the append-only `transactions` log. -/
structure Ledger where
  wallets : List Wallet
  transactions : List LedgerTransaction
deriving Repr, DecidableEq

/-- Modelled from the spec: the Wallet Ledger operations of section 4.3
(`credit`, `debit`, plus wallet creation) are absent from the source — the
repository contains only the `wallets`/`transactions` schema — so they are
modelled from the specification text.  `credit`/`debit` append a transaction
and atomically complete it while adjusting the balance; `debit` records a
negative amount and fails with `InsufficientFunds` (state unchanged) when the
balance would go below zero; operations naming a nonexistent wallet are
rejected by the `wallet_id` foreign key and change nothing. -/
inductive LedgerOp where
  | createWallet (walletId : Nat)
  | credit (walletId : Nat) (amount : Nat) (type : String) (ref : Option Nat)
  | debit (walletId : Nat) (amount : Nat) (type : String) (ref : Option Nat)
deriving Repr, DecidableEq

/-- Modelled from the spec: effect of one Wallet Ledger operation (section 4.3).
Each accepted `credit`/`debit` transitions its transaction to `completed` and
adjusts the wallet balance in the same atomic unit, so only the combined effect
is observable; a failed `debit` leaves the ledger in its pre-operation state. -/
def applyOp (L : Ledger) (op : LedgerOp) : Ledger :=
  match op with
  | LedgerOp.createWallet wid =>
    if L.wallets.any (fun w => w.id == wid) then L
    else { L with wallets := L.wallets ++ [⟨wid, 0⟩] }
  | LedgerOp.credit wid amt ty ref =>
    match L.wallets.find? (fun w => w.id == wid) with
    | none => L
    | some _ =>
      { wallets := L.wallets.map (fun w => if w.id == wid then ⟨w.id, w.balance + amt⟩ else w),
        transactions := L.transactions ++ [⟨wid, ref, (amt : Int), ty, "completed"⟩] }
  | LedgerOp.debit wid amt ty ref =>
    match L.wallets.find? (fun w => w.id == wid) with
    | none => L
    | some w =>
      if w.balance - amt < 0 then L
      else
        { wallets := L.wallets.map (fun w => if w.id == wid then ⟨w.id, w.balance - amt⟩ else w),
          transactions := L.transactions ++ [⟨wid, ref, -(amt : Int), ty, "completed"⟩] }

/-- The empty ledger: no wallets, no transactions. -/
def initialLedger : Ledger := ⟨[], []⟩

/-- Run a sequence of ledger operations from the empty ledger. -/
def runLedger (ops : List LedgerOp) : Ledger := ops.foldl applyOp initialLedger

/-- Sum of the amounts of the completed transactions referencing a wallet. -/
def completedSum (txs : List LedgerTransaction) (wid : Nat) : Int :=
  ((txs.filter (fun t => t.wallet_id == wid && t.status == "completed")).map
    (fun t => t.amount)).sum

/-- The ledger invariant: every wallet balance equals the sum of the completed
transactions that reference it. -/
def ledgerInvariant (L : Ledger) : Prop :=
  ∀ w ∈ L.wallets, w.balance = completedSum L.transactions w.id

/-- Embeds the `role` rule of `registerSchema` in `authValidator.js`:
`Joi.string().valid('job_seeker', 'employee', 'admin').optional()`.  The route
chain for `POST /register` in `authRoutes.js` applies only this validator — no
authentication middleware — and the service takes no caller identity. -/
def roleRuleAccepts : Option String → Bool
  | none => true
  | some r => r == "job_seeker" || r == "employee" || r == "admin"

/-! ## Proof development -/

set_option maxRecDepth 10000

/-- Auxiliary well-formedness for the ledger: every transaction references an
existing wallet (the `wallet_id` foreign key of `schema.sql`), and every
wallet balance agrees with its completed-transaction sum. -/
def ledgerWf (L : Ledger) : Prop :=
  (∀ t ∈ L.transactions, ∃ w ∈ L.wallets, w.id = t.wallet_id) ∧ ledgerInvariant L

lemma completedSum_append_single (txs : List LedgerTransaction) (t : LedgerTransaction)
    (wid : Nat) :
    completedSum (txs ++ [t]) wid = completedSum txs wid +
      (if t.wallet_id == wid && t.status == "completed" then t.amount else 0) := by
  unfold completedSum
  rw [List.filter_append, List.map_append, List.sum_append]
  congr 1
  by_cases h : (t.wallet_id == wid && t.status == "completed") = true
  · simp [List.filter_cons, h]
  · simp [List.filter_cons, h]

lemma applyOp_preserves_wf (L : Ledger) (op : LedgerOp) (h : ledgerWf L) :
    ledgerWf (applyOp L op) := by
  obtain ⟨hfk, hinv⟩ := h
  cases op with
  | createWallet wid =>
    simp only [applyOp]
    by_cases hex : L.wallets.any (fun w => w.id == wid) = true
    · simp only [hex, if_true]
      exact ⟨hfk, hinv⟩
    · simp only [hex, if_false]
      constructor
      · intro t ht
        obtain ⟨w, hw, hwid⟩ := hfk t ht
        exact ⟨w, List.mem_append_left _ hw, hwid⟩
      · intro w hw
        rcases List.mem_append.mp hw with hw | hw
        · exact hinv w hw
        · simp only [List.mem_singleton] at hw
          subst hw
          have hfil : L.transactions.filter
              (fun t => t.wallet_id == wid && t.status == "completed") = [] := by
            rw [List.filter_eq_nil_iff]
            intro t ht hc
            obtain ⟨w2, hw2, hwid2⟩ := hfk t ht
            have htw : t.wallet_id = wid := by
              have := (Bool.and_eq_true _ _).mp hc |>.1
              simpa using this
            apply hex
            exact List.any_eq_true.mpr ⟨w2, hw2, by simp [hwid2, htw]⟩
        
          show (0 : Int) = completedSum L.transactions wid
          simp [completedSum, hfil]
  | credit wid amt ty ref =>
    simp only [applyOp]
    cases hfind : L.wallets.find? (fun w => w.id == wid) with
    | none => exact ⟨hfk, hinv⟩
    | some w0 =>
      constructor
      · intro t ht
        rcases List.mem_append.mp ht with ht | ht
        · obtain ⟨w, hw, hwid⟩ := hfk t ht
          refine ⟨_, List.mem_map_of_mem _ hw, ?_⟩
          by_cases hcase : (w.id == wid) = true
          · simp only [hcase, if_true]
            exact hwid
          · simp only [hcase, if_false]
            exact hwid
        · simp only [List.mem_singleton] at ht
          subst ht
          have hw0 := List.mem_of_find?_eq_some hfind
          have hw0id : w0.id = wid := by simpa using List.find?_some hfind
          exact ⟨_, List.mem_map_of_mem _ hw0, by simp [hw0id]⟩
      · intro w hw
        rw [List.mem_map] at hw
        obtain ⟨w1, hw1, rfl⟩ := hw
        by_cases hcase : (w1.id == wid) = true
        · have hid : w1.id = wid := by simpa using hcase
          simp only [hcase, if_true]
          rw [completedSum_append_single]
          simp [hid, hinv w1 hw1]
        · simp only [hcase, if_false]
          rw [completedSum_append_single]
          have : (wid == w1.id) = false := by
            simp only [beq_eq_false_iff_ne, ne_eq]
            intro hcontra
            exact hcase (by simp [hcontra])
          simp [this, hinv w1 hw1]
  | debit wid amt ty ref =>
    simp only [applyOp]
    cases hfind : L.wallets.find? (fun w => w.id == wid) with
    | none => exact ⟨hfk, hinv⟩
    | some w0 =>
      by_cases hneg : w0.balance - amt < 0
      · simp only [hneg, if_true]
        exact ⟨hfk, hinv⟩
      · simp only [hneg, if_false]
        constructor
        · intro t ht
          rcases List.mem_append.mp ht with ht | ht
          · obtain ⟨w, hw, hwid⟩ := hfk t ht
            refine ⟨_, List.mem_map_of_mem _ hw, ?_⟩
            by_cases hcase : (w.id == wid) = true
            · simp only [hcase, if_true]
              exact hwid
            · simp only [hcase, if_false]
              exact hwid
          · simp only [List.mem_singleton] at ht
            subst ht
            have hw0 := List.mem_of_find?_eq_some hfind
            have hw0id : w0.id = wid := by simpa using List.find?_some hfind
            exact ⟨_, List.mem_map_of_mem _ hw0, by simp [hw0id]⟩
        · intro w hw
          rw [List.mem_map] at hw
          obtain ⟨w1, hw1, rfl⟩ := hw
          by_cases hcase : (w1.id == wid) = true
          · have hid : w1.id = wid := by simpa using hcase
            simp only [hcase, if_true]
            rw [completedSum_append_single]
            simp [hid, hinv w1 hw1]
            omega
          · simp only [hcase, if_false]
            rw [completedSum_append_single]
            have : (wid == w1.id) = false := by
              simp only [beq_eq_false_iff_ne, ne_eq]
              intro hcontra
              exact hcase (by simp [hcontra])
            simp [this, hinv w1 hw1]

lemma foldl_applyOp_wf (ops : List LedgerOp) :
    ∀ L, ledgerWf L → ledgerWf (ops.foldl applyOp L) := by
  induction ops with
  | nil => intro L h; exact h
  | cons op rest ih => intro L h; exact ih _ (applyOp_preserves_wf L op h)

lemma initialLedger_wf : ledgerWf initialLedger := by
  constructor
  · intro t ht
    simp [initialLedger] at ht
  · intro w hw
    simp [initialLedger] at hw

/-- C1: for every sequence of Wallet Ledger operations, every wallet of the
resulting state has its balance equal to the sum of the amounts of the
completed transactions referencing it — no operation leaves the cached balance
drifted from the transaction ledger. -/
theorem wallet_balance_equals_completed_transaction_sum
    (ops : List LedgerOp) (w : Wallet) (hw : w ∈ (runLedger ops).wallets) :
    w.balance = completedSum (runLedger ops).transactions w.id :=
  (foldl_applyOp_wf ops initialLedger initialLedger_wf).2 w hw

/-- Witness for C1: a create-credit-debit run yields wallet 1 with balance
300.0000 (stored as 3000000 units of 10^-4), matching its completed sum. -/
theorem wallet_balance_equals_completed_transaction_sum_witness :
    (⟨1, 3000000⟩ : Wallet) ∈ (runLedger [LedgerOp.createWallet 1,
        LedgerOp.credit 1 5000000 "referral_escrow" none,
        LedgerOp.debit 1 2000000 "referral_payout" none]).wallets ∧
    (3000000 : Int) = completedSum (runLedger [LedgerOp.createWallet 1,
        LedgerOp.credit 1 5000000 "referral_escrow" none,
        LedgerOp.debit 1 2000000 "referral_payout" none]).transactions 1 :=
  ⟨by decide, wallet_balance_equals_completed_transaction_sum
    [LedgerOp.createWallet 1, LedgerOp.credit 1 5000000 "referral_escrow" none,
     LedgerOp.debit 1 2000000 "referral_payout" none] ⟨1, 3000000⟩ (by decide)⟩

/-- C2: login fails with the single undifferentiated error object
`new Error('Invalid email or password')` both when the email lookup finds no
user and when the stored hash does not match the supplied password — the
failure observable by the caller (error class, message, status) is identical
in the two cases, and the store is untouched. -/
theorem login_invalid_credentials_undifferentiated
    (σ : Store) (email password : String) :
    (findUserByEmail σ email = none →
      login σ email password = (Except.error invalidCredentialsError, σ)) ∧
    (∀ u, findUserByEmail σ email = some u →
      bcryptCompare password u.password_hash = false →
      login σ email password = (Except.error invalidCredentialsError, σ)) := by
  constructor
  · intro h
    simp [login, h]
  · intro u hu hc
    simp [login, hu, hc]

/-- Witness for C2: a store with one user; an unknown email and a wrong
password produce the very same error value. -/
theorem login_invalid_credentials_undifferentiated_witness :
    login ⟨[⟨1, "alice@example.com", bcryptHash "secret" 10, "job_seeker", "active"⟩], [], 2, 1⟩
        "bob@example.com" "secret" =
      (Except.error invalidCredentialsError,
       ⟨[⟨1, "alice@example.com", bcryptHash "secret" 10, "job_seeker", "active"⟩], [], 2, 1⟩) ∧
    login ⟨[⟨1, "alice@example.com", bcryptHash "secret" 10, "job_seeker", "active"⟩], [], 2, 1⟩
        "alice@example.com" "wrong" =
      (Except.error invalidCredentialsError,
       ⟨[⟨1, "alice@example.com", bcryptHash "secret" 10, "job_seeker", "active"⟩], [], 2, 1⟩) :=
  ⟨(login_invalid_credentials_undifferentiated
      ⟨[⟨1, "alice@example.com", bcryptHash "secret" 10, "job_seeker", "active"⟩], [], 2, 1⟩
      "bob@example.com" "secret").1 (by decide),
   (login_invalid_credentials_undifferentiated
      ⟨[⟨1, "alice@example.com", bcryptHash "secret" 10, "job_seeker", "active"⟩], [], 2, 1⟩
      "alice@example.com" "wrong").2
      ⟨1, "alice@example.com", bcryptHash "secret" 10, "job_seeker", "active"⟩
      (by decide) (by decide)⟩

/-- C3: login never returns a success value and never changes the store, for
any input and store state; whenever the email exists and the password matches
the stored hash, the result is precisely the `ReferenceError` caused by the
unbound identifier `req` in the call
`createSession(user.id, refreshToken, req.ip, req.headers['user-agent'])`,
raised before any session can be created. -/
theorem login_never_succeeds
    (σ : Store) (email password : String) :
    ((login σ email password).1.isOk = false) ∧
    ((login σ email password).2 = σ) ∧
    (∀ u, findUserByEmail σ email = some u →
      bcryptCompare password u.password_hash = true →
      login σ email password = (Except.error reqNotDefinedError, σ)) := by
  refine ⟨?_, ?_, ?_⟩
  · cases h : findUserByEmail σ email with
    | none => simp [login, h, Except.isOk, Except.toBool]
    | some u =>
      by_cases hc : bcryptCompare password u.password_hash <;>
        simp [login, h, hc, Except.isOk, Except.toBool]
  · cases h : findUserByEmail σ email with
    | none => simp [login, h]
    | some u =>
      by_cases hc : bcryptCompare password u.password_hash <;> simp [login, h, hc]
  · intro u hu hc
    simp [login, hu, hc]

/-- Witness for C3: with the correct password for a stored user, login raises
the `req is not defined` reference error. -/
theorem login_never_succeeds_witness :
    login ⟨[⟨1, "alice@example.com", bcryptHash "secret" 10, "job_seeker", "active"⟩], [], 2, 1⟩
        "alice@example.com" "secret" =
      (Except.error reqNotDefinedError,
       ⟨[⟨1, "alice@example.com", bcryptHash "secret" 10, "job_seeker", "active"⟩], [], 2, 1⟩) :=
  (login_never_succeeds
      ⟨[⟨1, "alice@example.com", bcryptHash "secret" 10, "job_seeker", "active"⟩], [], 2, 1⟩
      "alice@example.com" "secret").2.2
    ⟨1, "alice@example.com", bcryptHash "secret" 10, "job_seeker", "active"⟩
    (by decide) (by decide)

/-- C4 (amended): createSession persists only an UNSALTED hash of the refresh
token: the stored `refresh_token_hash` is exactly the SHA-256 hex digest of
the raw token — the token itself is assigned to no field of the inserted row —
and any other call that persists the same raw token stores the identical hash,
whatever its store, time, user, address or agent: no per-record salt exists. -/
theorem createSession_stores_unsalted_hash
    (σ : Store) (now userId : Nat) (tok : String) (ip ua : Option String) :
    ∃ s, (createSession σ now userId tok ip ua).2.sessions = σ.sessions ++ [s] ∧
      s.refresh_token_hash = sha256Hex tok ∧
      s.user_id = userId ∧ s.ip_address = ip ∧ s.user_agent = ua ∧
      s.expires_at = now + sessionLifetimeMs ∧
      (∀ (σ₂ : Store) (now₂ userId₂ : Nat) (ip₂ ua₂ : Option String) (s₂ : Session),
        (createSession σ₂ now₂ userId₂ tok ip₂ ua₂).2.sessions = σ₂.sessions ++ [s₂] →
        s₂.refresh_token_hash = s.refresh_token_hash) := by
  refine ⟨⟨σ.nextSessionId, userId, sha256Hex tok, ip, ua, now + sessionLifetimeMs⟩,
    rfl, rfl, rfl, rfl, rfl, rfl, ?_⟩
  intro σ₂ now₂ userId₂ ip₂ ua₂ s₂ h
  have h0 : σ₂.sessions ++
      [(⟨σ₂.nextSessionId, userId₂, sha256Hex tok, ip₂, ua₂, now₂ + sessionLifetimeMs⟩ : Session)] =
      σ₂.sessions ++ [s₂] := h
  have h1 := List.append_cancel_left h0
  have h2 : (⟨σ₂.nextSessionId, userId₂, sha256Hex tok, ip₂, ua₂,
      now₂ + sessionLifetimeMs⟩ : Session) = s₂ := by
    simpa using h1
  rw [← h2]

/-- Witness for C4 (amended): two concrete calls differing in store, time,
user, address and agent but sharing the raw token "tok" store the same hash. -/
theorem createSession_stores_unsalted_hash_witness :
    ∃ s : Session,
      (createSession ⟨[], [], 1, 1⟩ 1000 7 "tok" (some "10.0.0.1") (some "curl")).2.sessions
        = [s] ∧
      s.refresh_token_hash = sha256Hex "tok" ∧
      (⟨5, 8, sha256Hex "tok", some "10.0.0.2", some "wget",
        2000 + sessionLifetimeMs⟩ : Session).refresh_token_hash = s.refresh_token_hash := by
  obtain ⟨s, h1, h2, -, -, -, -, h7⟩ := createSession_stores_unsalted_hash
    ⟨[], [], 1, 1⟩ 1000 7 "tok" (some "10.0.0.1") (some "curl")
  exact ⟨s, h1, h2,
    h7 ⟨[], [], 1, 5⟩ 2000 8 (some "10.0.0.2") (some "wget")
      ⟨5, 8, sha256Hex "tok", some "10.0.0.2", some "wget", 2000 + sessionLifetimeMs⟩ rfl⟩

/-- Counterexample for C4: sessions created for different users from different
stores, times, addresses and agents, but the same raw token, hold the
identical `refresh_token_hash` — the stored value is a function of the token
alone, so it carries no salt. -/
theorem createSession_hash_not_salted_counterexample :
    ((createSession ⟨[], [], 1, 1⟩ 1000 7 "tok" (some "10.0.0.1") (some "curl")).2.sessions.map
        (fun s => s.refresh_token_hash)) =
      ((createSession ⟨[], [], 1, 5⟩ 2000 8 "tok" (some "10.0.0.2") (some "wget")).2.sessions.map
        (fun s => s.refresh_token_hash)) := rfl

/-- C5 (amended): findSession hashes the input and returns only a stored
session whose hash matches with `expires_at` strictly in the future; when no
such unexpired row exists — whether because no row matches the hash or because
every matching row is expired — the result is the single undifferentiated
absence, which the refresh service turns into the one `Invalid refresh token`
error: no SessionNotFound/SessionExpired distinction is observable. -/
theorem findSession_unexpired_match_single_failure
    (σ : Store) (now : Nat) (tok : String) :
    (∀ s, findSession σ now tok = some s →
      s ∈ σ.sessions ∧ s.refresh_token_hash = sha256Hex tok ∧ now < s.expires_at) ∧
    (findSession σ now tok = none ↔
      ∀ s ∈ σ.sessions, ¬(s.refresh_token_hash = sha256Hex tok ∧ now < s.expires_at)) ∧
    (findSession σ now tok = none →
      refreshTokenService σ now tok = (Except.error invalidRefreshTokenError, σ)) := by
  refine ⟨?_, ?_, ?_⟩
  · intro s h
    unfold findSession at h
    have hp := List.find?_some h
    simp only [Bool.and_eq_true, beq_iff_eq, decide_eq_true_eq] at hp
    exact ⟨List.mem_of_find?_eq_some h, hp.1, hp.2⟩
  · unfold findSession
    rw [List.find?_eq_none]
    constructor
    · intro h s hs
      have := h s hs
      simp only [Bool.and_eq_true, beq_iff_eq, decide_eq_true_eq] at this
      exact this
    · intro h s hs
      have := h s hs
      simp only [Bool.and_eq_true, beq_iff_eq, decide_eq_true_eq]
      exact this
  · intro h
    simp [refreshTokenService, h]

/-- Witness for C5 (amended): a stored unexpired matching session is returned
with its stored fields, and on an empty store the refresh service throws the
single invalid-token error. -/
theorem findSession_unexpired_match_single_failure_witness :
    ((⟨1, 4, sha256Hex "tok", none, none, 999999⟩ : Session) ∈
        ([⟨1, 4, sha256Hex "tok", none, none, 999999⟩] : List Session) ∧
      (⟨1, 4, sha256Hex "tok", none, none, 999999⟩ : Session).refresh_token_hash =
        sha256Hex "tok" ∧
      500 < 999999) ∧
    refreshTokenService ⟨[], [], 1, 1⟩ 500 "tok" =
      (Except.error invalidRefreshTokenError, ⟨[], [], 1, 1⟩) :=
  ⟨(findSession_unexpired_match_single_failure
      ⟨[], [⟨1, 4, sha256Hex "tok", none, none, 999999⟩], 1, 2⟩ 500 "tok").1
      ⟨1, 4, sha256Hex "tok", none, none, 999999⟩ rfl,
   (findSession_unexpired_match_single_failure ⟨[], [], 1, 1⟩ 500 "tok").2.2 rfl⟩

/-- Counterexample for C5: with the same token and time, a store holding no
matching session and a store holding a matching but expired session produce
identical observables — `findSession` yields nothing and the refresh service
throws the same `Invalid refresh token` error in both cases, so no
SessionExpired error kind distinguishable from SessionNotFound exists. -/
theorem findSession_no_expiry_distinction_counterexample :
    (findSession ⟨[], [], 1, 1⟩ 500 "tok" = none ∧
     refreshTokenService ⟨[], [], 1, 1⟩ 500 "tok" =
       (Except.error invalidRefreshTokenError, ⟨[], [], 1, 1⟩)) ∧
    (findSession ⟨[], [⟨1, 4, sha256Hex "tok", none, none, 500⟩], 1, 2⟩ 500 "tok" = none ∧
     refreshTokenService ⟨[], [⟨1, 4, sha256Hex "tok", none, none, 500⟩], 1, 2⟩ 500 "tok" =
       (Except.error invalidRefreshTokenError,
        ⟨[], [⟨1, 4, sha256Hex "tok", none, none, 500⟩], 1, 2⟩)) := by
  have hnone : findSession ⟨[], [⟨1, 4, sha256Hex "tok", none, none, 500⟩], 1, 2⟩ 500 "tok"
      = none := by
    unfold findSession
    rw [List.find?_eq_none]
    intro s hs
    simp only [List.mem_singleton] at hs
    subst hs
    simp
  exact ⟨⟨rfl, rfl⟩, hnone, by simp [refreshTokenService, hnone]⟩

/-- C6: the refresh service fails with the single `Invalid refresh token`
error when no unexpired session matches; on success it returns an access token
derived from the session user and leaves the store unchanged — no session is
created, deleted or modified, so an immediate second refresh with the same raw
token on the resulting store succeeds identically (no rotation). -/
theorem refreshToken_no_rotation (σ : Store) (now : Nat) (tok : String) :
    ((refreshTokenService σ now tok).2 = σ) ∧
    (findSession σ now tok = none →
      refreshTokenService σ now tok = (Except.error invalidRefreshTokenError, σ)) ∧
    (∀ r σ₂, refreshTokenService σ now tok = (Except.ok r, σ₂) →
      σ₂ = σ ∧
      (∃ s u, findSession σ now tok = some s ∧ findUserById σ s.user_id = some u ∧
        r = ⟨generateAccessToken u.id u.role⟩) ∧
      refreshTokenService σ₂ now tok = (Except.ok r, σ₂)) := by
  refine ⟨?_, ?_, ?_⟩
  · cases h : findSession σ now tok with
    | none => simp [refreshTokenService, h]
    | some s =>
      cases h2 : findUserById σ s.user_id with
      | none => simp [refreshTokenService, h, h2]
      | some u => simp [refreshTokenService, h, h2]
  · intro h
    simp [refreshTokenService, h]
  · intro r σ₂ h
    cases hf : findSession σ now tok with
    | none => simp [refreshTokenService, hf] at h
    | some s =>
      cases h2 : findUserById σ s.user_id with
      | none => simp [refreshTokenService, hf, h2] at h
      | some u =>
        simp only [refreshTokenService, hf, h2, Prod.mk.injEq] at h
        obtain ⟨hr, hσ⟩ := h
        have hr2 : r = ⟨generateAccessToken u.id u.role⟩ := by
          cases hr2 : r
          simp [hr2] at hr
          simp [hr]
        subst hσ
        refine ⟨rfl, ⟨s, u, rfl, h2, hr2⟩, ?_⟩
        simp [refreshTokenService, hf, h2, hr2]

/-- Witness for C6: a store with one user and one matching unexpired session;
refresh succeeds, returns the store unchanged, and succeeds again on it. -/
theorem refreshToken_no_rotation_witness :
    (⟨[⟨4, "a@b.c", "h", "employee", "active"⟩],
        [⟨1, 4, sha256Hex "tok", none, none, 999999⟩], 5, 2⟩ : Store) =
      ⟨[⟨4, "a@b.c", "h", "employee", "active"⟩],
        [⟨1, 4, sha256Hex "tok", none, none, 999999⟩], 5, 2⟩ ∧
    (∃ s u, findSession ⟨[⟨4, "a@b.c", "h", "employee", "active"⟩],
          [⟨1, 4, sha256Hex "tok", none, none, 999999⟩], 5, 2⟩ 500 "tok" = some s ∧
        findUserById ⟨[⟨4, "a@b.c", "h", "employee", "active"⟩],
          [⟨1, 4, sha256Hex "tok", none, none, 999999⟩], 5, 2⟩ s.user_id = some u ∧
        (⟨generateAccessToken 4 "employee"⟩ : RefreshResult) =
          ⟨generateAccessToken u.id u.role⟩) ∧
    refreshTokenService ⟨[⟨4, "a@b.c", "h", "employee", "active"⟩],
        [⟨1, 4, sha256Hex "tok", none, none, 999999⟩], 5, 2⟩ 500 "tok" =
      (Except.ok ⟨generateAccessToken 4 "employee"⟩,
       ⟨[⟨4, "a@b.c", "h", "employee", "active"⟩],
        [⟨1, 4, sha256Hex "tok", none, none, 999999⟩], 5, 2⟩) :=
  (refreshToken_no_rotation
    ⟨[⟨4, "a@b.c", "h", "employee", "active"⟩],
      [⟨1, 4, sha256Hex "tok", none, none, 999999⟩], 5, 2⟩ 500 "tok").2.2
    ⟨generateAccessToken 4 "employee"⟩
    ⟨[⟨4, "a@b.c", "h", "employee", "active"⟩],
      [⟨1, 4, sha256Hex "tok", none, none, 999999⟩], 5, 2⟩ rfl

/-- Counterexample for C7: when a session for user 1 already stores the hash
of the raw token "tok", user 2 calling createSession with that token and then
findSessionByToken gets back the FIRST matching row — user 1's session, not
its own: the returned `user_id` is 1, not the creating user 2. -/
theorem create_find_roundTrip_counterexample :
    ((findSession (createSession ⟨[], [⟨0, 1, sha256Hex "tok", none, none, 999999999999⟩], 1, 1⟩
        1000 2 "tok" none none).2 2000 "tok").map (fun s => s.user_id) = some 1) ∧
    (((findSession (createSession ⟨[], [⟨0, 1, sha256Hex "tok", none, none, 999999999999⟩], 1, 1⟩
        1000 2 "tok" none none).2 2000 "tok").map (fun s => s.user_id) == some 2) = false) :=
  ⟨rfl, rfl⟩

/-- C7 (amended): when no pre-existing session stores the hash of the raw
token, createSession followed by findSessionByToken with the same token, at
any time strictly before the created expiry, returns a session whose
`user_id` is the creating user. -/
theorem create_find_roundTrip
    (σ : Store) (now now₂ userId : Nat) (tok : String) (ip ua : Option String)
    (hfresh : ∀ s ∈ σ.sessions, s.refresh_token_hash ≠ sha256Hex tok)
    (hbefore : now₂ < now + sessionLifetimeMs) :
    ∃ s, findSession (createSession σ now userId tok ip ua).2 now₂ tok = some s ∧
      s.user_id = userId := by
  refine ⟨⟨σ.nextSessionId, userId, sha256Hex tok, ip, ua, now + sessionLifetimeMs⟩, ?_, rfl⟩
  show (σ.sessions ++
      [(⟨σ.nextSessionId, userId, sha256Hex tok, ip, ua, now + sessionLifetimeMs⟩ : Session)]).find?
      (fun s => s.refresh_token_hash == sha256Hex tok && decide (now₂ < s.expires_at)) =
    some ⟨σ.nextSessionId, userId, sha256Hex tok, ip, ua, now + sessionLifetimeMs⟩
  rw [List.find?_append]
  have h1 : σ.sessions.find?
      (fun s => s.refresh_token_hash == sha256Hex tok && decide (now₂ < s.expires_at)) = none := by
    rw [List.find?_eq_none]
    intro s hs
    simp only [Bool.and_eq_true, beq_iff_eq, decide_eq_true_eq]
    intro hcon
    exact hfresh s hs hcon.1
  rw [h1]
  have hp : ((⟨σ.nextSessionId, userId, sha256Hex tok, ip, ua,
      now + sessionLifetimeMs⟩ : Session).refresh_token_hash == sha256Hex tok &&
      decide (now₂ < (⟨σ.nextSessionId, userId, sha256Hex tok, ip, ua,
        now + sessionLifetimeMs⟩ : Session).expires_at)) = true := by
    simp [hbefore]
  have hfind : List.find?
      (fun s => s.refresh_token_hash == sha256Hex tok && decide (now₂ < s.expires_at))
      [(⟨σ.nextSessionId, userId, sha256Hex tok, ip, ua,
        now + sessionLifetimeMs⟩ : Session)] =
      some ⟨σ.nextSessionId, userId, sha256Hex tok, ip, ua, now + sessionLifetimeMs⟩ :=
    List.find?_cons_of_pos _ hp
  rw [hfind]
  rfl

/-- Witness for C7 (amended): a fresh store; user 7 creates a session with
token "tok" at time 1000 and finds it again at time 2000. -/
theorem create_find_roundTrip_witness :
    ∃ s, findSession (createSession ⟨[], [], 1, 1⟩ 1000 7 "tok" none none).2 2000 "tok"
        = some s ∧ s.user_id = 7 :=
  create_find_roundTrip ⟨[], [], 1, 1⟩ 1000 2000 7 "tok" none none
    (by intro s hs; simp at hs) (by decide)

/-- C8: deleteSession is idempotent — a second call with the same arguments is
the identity on the store already produced by the first (the operation raises
nothing in either case: it is a total function), and after the call no session
matching the (userId, token-hash) pair remains in storage. -/
theorem deleteSession_idempotent (σ : Store) (userId : Nat) (tok : String) :
    deleteSession (deleteSession σ userId tok) userId tok = deleteSession σ userId tok ∧
    ((deleteSession σ userId tok).sessions.any
      (fun s => s.user_id == userId && s.refresh_token_hash == sha256Hex tok)) = false := by
  have hfil : ∀ (l : List Session) (p : Session → Bool), (l.filter p).filter p = l.filter p := by
    intro l p
    rw [List.filter_filter]
    have hpp : (fun a => p a && p a) = p := funext fun a => Bool.and_self _
    rw [hpp]
  constructor
  · simp only [deleteSession, Store.mk.injEq]
    refine ⟨trivial, ?_, trivial, trivial⟩
    exact hfil σ.sessions _
  · rw [List.any_eq_false]
    intro s hs
    have hs2 : s ∈ σ.sessions.filter
        (fun s => !(s.user_id == userId && s.refresh_token_hash == sha256Hex tok)) := hs
    rw [List.mem_filter] at hs2
    obtain ⟨-, hkeep⟩ := hs2
    rw [Bool.not_eq_eq_eq_not, Bool.not_true] at hkeep
    simp [hkeep]

/-- C9: user creation fails with the duplicate-email error when a user with
the email exists, leaving the store untouched; with a fresh email it inserts
and returns the new user.  The duplicate check is enforced twice: by the
pre-insert lookup in `register` and, independently, by the `UNIQUE` constraint
on `users.email` — the bare insert `createUser` fails on a duplicate even when
the pre-check is bypassed. -/
theorem createUser_duplicate_email_guard
    (σ : Store) (email password role : String) :
    (∀ u, findUserByEmail σ email = some u →
      register σ email password role = (Except.error emailExistsError, σ)) ∧
    (findUserByEmail σ email = none →
      ∃ u, register σ email password role =
          (Except.ok u, { σ with users := σ.users ++ [u], nextUserId := σ.nextUserId + 1 }) ∧
        u.email = email ∧ u.role = role) ∧
    (∀ u ∈ σ.users, u.email = email →
      createUser σ email (bcryptHash password 10) role =
        (Except.error (DbError.uniqueViolation "users_email_key"), σ)) := by
  refine ⟨?_, ?_, ?_⟩
  · intro u hu
    simp [register, hu]
  · intro h
    have hany : σ.users.any (fun u => u.email == email) = false := by
      rw [List.any_eq_false]
      intro u hu
      unfold findUserByEmail at h
      exact List.find?_eq_none.mp h u hu
    refine ⟨⟨σ.nextUserId, email, bcryptHash password 10, role, "pending_verification"⟩,
      ?_, rfl, rfl⟩
    simp [register, h, createUser, hany]
  · intro u hu he
    have hany : σ.users.any (fun x => x.email == email) = true :=
      List.any_eq_true.mpr ⟨u, hu, by simp [he]⟩
    simp [createUser, hany]

/-- Witness for C9: registering a taken email fails with the 400 error and
the single pre-existing user survives unchanged; a fresh email is inserted;
the bare insert also rejects the taken email. -/
theorem createUser_duplicate_email_guard_witness :
    register ⟨[⟨1, "alice@example.com", "h", "job_seeker", "active"⟩], [], 2, 1⟩
        "alice@example.com" "pw" "employee" =
      (Except.error emailExistsError,
       ⟨[⟨1, "alice@example.com", "h", "job_seeker", "active"⟩], [], 2, 1⟩) ∧
    (∃ u, register ⟨[], [], 1, 1⟩ "bob@example.com" "pw" "employee" =
        (Except.ok u, ⟨[u], [], 2, 1⟩) ∧
      u.email = "bob@example.com" ∧ u.role = "employee") ∧
    createUser ⟨[⟨1, "alice@example.com", "h", "job_seeker", "active"⟩], [], 2, 1⟩
        "alice@example.com" (bcryptHash "pw" 10) "employee" =
      (Except.error (DbError.uniqueViolation "users_email_key"),
       ⟨[⟨1, "alice@example.com", "h", "job_seeker", "active"⟩], [], 2, 1⟩) :=
  ⟨(createUser_duplicate_email_guard
      ⟨[⟨1, "alice@example.com", "h", "job_seeker", "active"⟩], [], 2, 1⟩
      "alice@example.com" "pw" "employee").1
      ⟨1, "alice@example.com", "h", "job_seeker", "active"⟩ rfl,
   (createUser_duplicate_email_guard ⟨[], [], 1, 1⟩ "bob@example.com" "pw" "employee").2.1 rfl,
   (createUser_duplicate_email_guard
      ⟨[⟨1, "alice@example.com", "h", "job_seeker", "active"⟩], [], 2, 1⟩
      "alice@example.com" "pw" "employee").2.2
      ⟨1, "alice@example.com", "h", "job_seeker", "active"⟩ (by simp) rfl⟩

/-- C10: the register validator accepts each of the roles job_seeker, employee
and admin — in particular the literal role "admin" — and registration, which is
reachable with no authentication (no caller identity exists in its signature
and the `/register` route carries no auth middleware), creates a user whose
stored role is exactly the supplied one. -/
theorem register_role_unrestricted (σ : Store) (email password role : String) :
    roleRuleAccepts (some "admin") = true ∧
    (roleRuleAccepts (some role) = true → findUserByEmail σ email = none →
      ∃ u, (register σ email password role).1 = Except.ok u ∧
        u.role = role ∧ u.email = email) := by
  refine ⟨rfl, ?_⟩
  intro _ h
  have hany : σ.users.any (fun u => u.email == email) = false := by
    rw [List.any_eq_false]
    intro u hu
    unfold findUserByEmail at h
    exact List.find?_eq_none.mp h u hu
  exact ⟨⟨σ.nextUserId, email, bcryptHash password 10, role, "pending_verification"⟩,
    by simp [register, h, createUser, hany], rfl, rfl⟩

/-- Witness for C10: an unauthenticated register call with role "admin" on an
empty store yields a user whose stored role is "admin". -/
theorem register_role_unrestricted_witness :
    ∃ u, (register ⟨[], [], 1, 1⟩ "eve@example.com" "pw" "admin").1 = Except.ok u ∧
      u.role = "admin" ∧ u.email = "eve@example.com" :=
  (register_role_unrestricted ⟨[], [], 1, 1⟩ "eve@example.com" "pw" "admin").2 rfl rfl
